import Mathlib

/-!
Shallow embedding of the token-verification-and-authorization subsystem of
`src/archipy/adapters/keycloak/adapters.py` (class `KeycloakAdapter`).

The identity-provider client (`python-keycloak`'s `KeycloakOpenID`) is an
external collaborator; its observable behaviour at one instant is captured by
an `Env` record: the outcome of `self.get_public_key()`, the decode function
`decode_token`, and the UMA permission endpoint `uma_permissions`.  The
adapter methods `has_role`, `has_any_role`, `check_permissions`,
`validate_token` and `get_token_info` are translated as total Lean functions
over `Env`; Python exception flow becomes `Except`, and the blanket
`except Exception: return False` handlers become the `.error _ => false`
branches.  Totality of the `Bool`-valued functions is the embedding of
"never raises".
-/

namespace Keycloak

/-- Opaque signature-verification key material (`jwk.JWK` object). -/
abbrev PubKey := String

/-- One value of the `resource_access` mapping: `client.get("roles", [])`
defaults to the empty list when the `roles` entry is absent. -/
structure ClientAccess where
  roles : List String
deriving DecidableEq

/-- The decoded claim dictionary returned by `decode_token`.
`realm_roles` stands for `token_info.get("realm_access", {}).get("roles", [])`
(absent levels default to the empty list); `resource_access` is the
client-id-to-access mapping `token_info.get("resource_access", {})` as an
association list; `exp` and `sub` are the expiry and subject claims. -/
structure TokenInfo where
  realm_roles : List String
  resource_access : List (String × ClientAccess)
  exp : Nat
  sub : String
deriving DecidableEq

/-- Failure of `self.get_public_key()`: the method wraps any fetch exception
into a raised `ValueError` (adapters.py lines 129-137). -/
inductive KeyErr where
  | fetchFailed
deriving DecidableEq

/-- The reasons `decode_token` fails, per the collaborator's contract:
bad signature, malformed token, or expired token. -/
inductive DecodeReason where
  | badSignature
  | malformed
  | expired
deriving DecidableEq

/-- Failure of the `uma_permissions` network call: a `KeycloakError` or any
other exception (for example a network failure); `check_permissions` has one
`except` arm for each (adapters.py lines 789-794). -/
inductive UmaErr where
  | keycloakError
  | networkError
deriving DecidableEq

/-- One entry of the UMA response list: `perm.get("rsname")` is `none` when
the key is absent; `perm.get("scopes", [])` defaults to the empty list. -/
structure UmaPerm where
  rsname : Option String
  scopes : List String
deriving DecidableEq

/-- The UMA response value: a list of permission entries, or any non-list
value (rejected by the `isinstance(permissions, list)` test). -/
inductive UmaResp where
  | list (perms : List UmaPerm)
  | nonList
deriving DecidableEq

/-- The external identity-provider collaborator as observed during one
adapter call: the outcome of `self.get_public_key()`, the verification
function `decode_token(token, key=...)`, and the permission endpoint
`uma_permissions(token, permissions=[req])`. -/
structure Env where
  public_key : Except KeyErr PubKey
  decode : PubKey → String → Except DecodeReason TokenInfo
  uma : String → String → Except UmaErr UmaResp

/-- `KeycloakAdapter.has_role` (adapters.py lines 341-374): decode the token
with the current public key, succeed when `role_name` is in the realm roles
or in some client's role list, and return `False` on any exception. -/
def has_role (env : Env) (token : String) (role_name : String) : Bool :=
  match env.public_key with
  | .error _ => false
  | .ok key =>
    match env.decode key token with
    | .error _ => false
    | .ok token_info =>
      decide (role_name ∈ token_info.realm_roles)
        || token_info.resource_access.any fun client =>
             decide (role_name ∈ client.2.roles)

/-- `KeycloakAdapter.has_any_role` (adapters.py lines 377-413): like
`has_role` but scanning a list of candidate role names against the realm
roles and then against each client's role list. -/
def has_any_role (env : Env) (token : String) (role_names : List String) : Bool :=
  match env.public_key with
  | .error _ => false
  | .ok key =>
    match env.decode key token with
    | .error _ => false
    | .ok token_info =>
      (role_names.any fun role => decide (role ∈ token_info.realm_roles))
        || token_info.resource_access.any fun client =>
             role_names.any fun role => decide (role ∈ client.2.roles)

/-- `KeycloakAdapter.check_permissions` (adapters.py lines 763-794): call
`uma_permissions` with the single requirement string `"{resource}#{scope}"`;
deny on any exception, on a falsy or non-list response, and when no entry has
`rsname == resource` with `scope` among its scopes. -/
def check_permissions (env : Env) (token : String) (resource : String) (scope : String) : Bool :=
  match env.uma token (resource ++ "#" ++ scope) with
  | .error _ => false
  | .ok resp =>
    match resp with
    | .nonList => false
    | .list perms =>
      if perms.isEmpty then false
      else perms.any fun perm =>
        decide (perm.rsname = some resource ∧ scope ∈ perm.scopes)

/-- `KeycloakAdapter.validate_token` (adapters.py lines 186-204): `True`
exactly when `decode_token(token, key=self.get_public_key())` succeeds,
`False` on any exception (including a public-key failure). -/
def validate_token (env : Env) (token : String) : Bool :=
  match env.public_key with
  | .error _ => false
  | .ok key =>
    match env.decode key token with
    | .error _ => false
    | .ok _ => true

/-- The error raised by `KeycloakAdapter.get_token_info`: either the
`ValueError` raised inside `get_public_key` (propagating uncaught, the spec's
`KeyUnavailableError`) or the `ValueError` wrapping the decode failure (the
spec's `InvalidTokenError`). -/
inductive TokenInfoErr where
  | keyUnavailable
  | invalidToken (r : DecodeReason)
deriving DecidableEq

/-- `KeycloakAdapter.get_token_info` (adapters.py lines 948-967), the spec's
`decode`: call `decode_token` with the current public key; a failure of
`get_public_key` surfaces as the key-unavailability error, a decode failure
is wrapped as the invalid-token error, otherwise the claims are returned. -/
def get_token_info (env : Env) (token : String) : Except TokenInfoErr TokenInfo :=
  match env.public_key with
  | .error _ => .error .keyUnavailable
  | .ok key =>
    match env.decode key token with
    | .error r => .error (.invalidToken r)
    | .ok info => .ok info

/-! Concrete collaborator behaviours used to instantiate the theorems. -/

/-- A concrete decoded claim set (spec scenario: realm roles `admin`,`user`;
client `billing-service` with role `payer`). -/
def infoDemo : TokenInfo :=
  { realm_roles := ["admin", "user"]
    resource_access := [("billing-service", ⟨["payer"]⟩)]
    exp := 1000
    sub := "alice" }

/-- A healthy collaborator: key available, tokens decode to `infoDemo`, the
UMA endpoint grants `read` on `invoices`. -/
def envOk : Env :=
  { public_key := .ok "pk"
    decode := fun _ _ => .ok infoDemo
    uma := fun _ _ => .ok (.list [⟨some "invoices", ["read"]⟩]) }

/-- A collaborator whose key fetch and UMA endpoint both fail. -/
def envKeyFail : Env :=
  { public_key := .error .fetchFailed
    decode := fun _ _ => .ok infoDemo
    uma := fun _ _ => .error .networkError }

/-- Same key and decode behaviour as `envOk`, but the UMA endpoint fails:
differs from `envOk` only in the permission endpoint. -/
def envUmaDeny : Env :=
  { public_key := .ok "pk"
    decode := fun _ _ => .ok infoDemo
    uma := fun _ _ => .error .networkError }

/-- C1: for every token and every error arising during evaluation (key fetch
failure, any decode failure — bad signature, malformed, expired —, a UMA
network/Keycloak error, or a malformed non-list permission response), the
predicates `has_role`, `has_any_role` and `check_permissions` return `false`;
they are total `Bool`-valued functions, so they never raise. -/
theorem predicates_fail_closed (env : Env) (token role : String)
    (roles : List String) (resource scope : String) :
    ((∀ key, env.public_key = .ok key → ∀ info, env.decode key token ≠ .ok info) →
        has_role env token role = false ∧ has_any_role env token roles = false)
    ∧ (∀ e, env.uma token (resource ++ "#" ++ scope) = .error e →
        check_permissions env token resource scope = false)
    ∧ (env.uma token (resource ++ "#" ++ scope) = .ok .nonList →
        check_permissions env token resource scope = false) := by
  refine ⟨fun h => ?_, fun e he => ?_, fun hn => ?_⟩
  · cases hk : env.public_key with
    | error e => constructor <;> simp [has_role, has_any_role, hk]
    | ok key =>
      cases hd : env.decode key token with
      | error r => constructor <;> simp [has_role, has_any_role, hk, hd]
      | ok info => exact absurd hd (h key hk info)
  · simp [check_permissions, he]
  · simp [check_permissions, hn]

/-- Closed instance of `predicates_fail_closed` at the failing collaborator
`envKeyFail`. -/
theorem predicates_fail_closed_witness :
    has_role envKeyFail "tok" "admin" = false ∧
      has_any_role envKeyFail "tok" ["admin", "user"] = false ∧
      check_permissions envKeyFail "tok" "invoices" "read" = false := by
  have h := predicates_fail_closed envKeyFail "tok" "admin" ["admin", "user"]
    "invoices" "read"
  have hkey : ∀ key, envKeyFail.public_key = .ok key →
      ∀ info, envKeyFail.decode key "tok" ≠ .ok info := by
    intro key hk
    simp [envKeyFail] at hk
  exact ⟨(h.1 hkey).1, (h.1 hkey).2, h.2.1 .networkError rfl⟩

/-- C2: for a token that decodes successfully, `has_role` is `true` exactly
when the role is among the realm roles or among some client's roles. -/
theorem has_role_iff_mem (env : Env) (token role : String) (key : PubKey)
    (info : TokenInfo) (hk : env.public_key = .ok key)
    (hd : env.decode key token = .ok info) :
    has_role env token role = true ↔
      role ∈ info.realm_roles ∨ ∃ c ∈ info.resource_access, role ∈ c.2.roles := by
  simp [has_role, hk, hd, List.any_eq_true]

/-- Closed instance of `has_role_iff_mem`: the spec scenario
`realm_access.roles = ["admin","user"]` makes `has_role _ "admin"` true. -/
theorem has_role_iff_mem_witness :
    envOk.public_key = .ok "pk" ∧ envOk.decode "pk" "tok" = .ok infoDemo ∧
      (has_role envOk "tok" "admin" = true ↔
        "admin" ∈ infoDemo.realm_roles ∨
          ∃ c ∈ infoDemo.resource_access, "admin" ∈ c.2.roles) :=
  ⟨rfl, rfl, has_role_iff_mem envOk "tok" "admin" "pk" infoDemo rfl rfl⟩

/-- C3: `has_any_role` on a singleton list agrees with `has_role`. -/
theorem has_any_role_singleton (env : Env) (token role : String) :
    has_any_role env token [role] = has_role env token role := by
  cases hk : env.public_key with
  | error e => simp [has_any_role, has_role, hk]
  | ok key =>
    cases hd : env.decode key token with
    | error r => simp [has_any_role, has_role, hk, hd]
    | ok info => simp [has_any_role, has_role, hk, hd]

/-- C4: `check_permissions` queries the UMA endpoint with the single
requirement string `resource ++ "#" ++ scope`, and returns `true` exactly
when the response is a list containing an entry whose `rsname` equals the
resource and whose scope list contains the scope. -/
theorem check_permissions_iff (env : Env) (token resource scope : String) :
    check_permissions env token resource scope = true ↔
      ∃ perms, env.uma token (resource ++ "#" ++ scope) = .ok (.list perms) ∧
        ∃ p ∈ perms, p.rsname = some resource ∧ scope ∈ p.scopes := by
  cases hu : env.uma token (resource ++ "#" ++ scope) with
  | error e => simp [check_permissions, hu]
  | ok resp =>
    cases resp with
    | nonList => simp [check_permissions, hu]
    | list perms =>
      cases perms with
      | nil => simp [check_permissions, hu]
      | cons p ps => simp [check_permissions, hu, List.any_eq_true]

/-- C5: `get_token_info` (the spec's `decode`) returns the invalid-token
error exactly when the key is available and the collaborator's decode fails
(bad signature, malformed, or expired); it surfaces the key-unavailability
error exactly when `get_public_key` fails; and it returns the claims exactly
when decoding succeeds. -/
theorem get_token_info_spec (env : Env) (token : String) :
    (∀ r, get_token_info env token = .error (.invalidToken r) ↔
        ∃ key, env.public_key = .ok key ∧ env.decode key token = .error r)
    ∧ (get_token_info env token = .error .keyUnavailable ↔
        env.public_key = .error .fetchFailed)
    ∧ (∀ info, get_token_info env token = .ok info ↔
        ∃ key, env.public_key = .ok key ∧ env.decode key token = .ok info) := by
  cases hk : env.public_key with
  | error e =>
    cases e
    refine ⟨fun r => ?_, ?_, fun info => ?_⟩ <;> simp [get_token_info, hk]
  | ok key =>
    cases hd : env.decode key token with
    | error r =>
      refine ⟨fun r' => ?_, ?_, fun info => ?_⟩ <;>
        simp [get_token_info, hk, hd, eq_comm]
    | ok info =>
      refine ⟨fun r' => ?_, ?_, fun info' => ?_⟩ <;>
        simp [get_token_info, hk, hd, eq_comm]

/-- C8 as stated is false: `check_permissions` is not determined by the
decoded claim structure.  `envOk` and `envUmaDeny` share the public key and
the decode function (hence all decoded claims), yet `check_permissions`
answers differently because it calls the UMA network endpoint. -/
theorem check_permissions_not_claims_determined :
    envOk.public_key = envUmaDeny.public_key ∧
      envOk.decode = envUmaDeny.decode ∧
      check_permissions envOk "tok" "invoices" "read" = true ∧
      check_permissions envUmaDeny "tok" "invoices" "read" = false :=
  ⟨rfl, rfl, by decide, by decide⟩

/-- C8 amended: after a successful decode, `has_role` and `has_any_role` are
determined by the decoded claim structure alone — two collaborators yielding
the same claims give the same booleans — while `check_permissions` is
determined by the UMA endpoint's response to the requirement string. -/
theorem role_predicates_claims_determined (env1 env2 : Env)
    (t1 t2 role : String) (roles : List String)
    (key1 key2 : PubKey) (info : TokenInfo)
    (h1 : env1.public_key = .ok key1) (hd1 : env1.decode key1 t1 = .ok info)
    (h2 : env2.public_key = .ok key2) (hd2 : env2.decode key2 t2 = .ok info) :
    has_role env1 t1 role = has_role env2 t2 role ∧
      has_any_role env1 t1 roles = has_any_role env2 t2 roles ∧
      ∀ resource scope,
        env1.uma t1 (resource ++ "#" ++ scope) = env2.uma t2 (resource ++ "#" ++ scope) →
          check_permissions env1 t1 resource scope =
            check_permissions env2 t2 resource scope := by
  refine ⟨?_, ?_, fun resource scope hu => ?_⟩
  · simp [has_role, h1, hd1, h2, hd2]
  · simp [has_any_role, h1, hd1, h2, hd2]
  · simp [check_permissions, hu]

/-- Closed instance of `role_predicates_claims_determined` at `envOk` and
`envUmaDeny`, which decode every token to the same claims. -/
theorem role_predicates_claims_determined_witness :
    has_role envOk "tok" "admin" = has_role envUmaDeny "tok" "admin" ∧
      has_any_role envOk "tok" ["admin"] = has_any_role envUmaDeny "tok" ["admin"] ∧
      ∀ resource scope,
        envOk.uma "tok" (resource ++ "#" ++ scope) =
            envUmaDeny.uma "tok" (resource ++ "#" ++ scope) →
          check_permissions envOk "tok" resource scope =
            check_permissions envUmaDeny "tok" resource scope :=
  role_predicates_claims_determined envOk envUmaDeny "tok" "tok" "admin"
    ["admin"] "pk" "pk" infoDemo rfl rfl rfl rfl

/-- C9: `has_any_role` with an empty candidate list is always `false`, even
when the token decodes successfully with non-empty role sets. -/
theorem has_any_role_nil (env : Env) (token : String) :
    has_any_role env token [] = false := by
  cases hk : env.public_key with
  | error e => simp [has_any_role, hk]
  | ok key =>
    cases hd : env.decode key token with
    | error r => simp [has_any_role, hk, hd]
    | ok info => simp [has_any_role, hk, hd]

/-- C10: `validate_token` is total (never raises) and is `true` exactly when
the public key is available and the token decodes against it. -/
theorem validate_token_iff (env : Env) (token : String) :
    validate_token env token = true ↔
      ∃ key info, env.public_key = .ok key ∧ env.decode key token = .ok info := by
  unfold validate_token
  cases hk : env.public_key with
  | error e => simp [hk]
  | ok key =>
    cases hd : env.decode key token with
    | error r => simp [hk, hd]
    | ok info => simp [hk, hd]

/-! The public-key cache.  `get_public_key` is wrapped by
`@ttl_cache_decorator(ttl_seconds=3600, maxsize=1)` (adapters.py line 122);
the decorator's implementation (`archipy/helpers/decorators/cache.py`) is not
among the sources, so the cache behaviour is modelled from the spec. -/

/-- The TTL of the public-key cache: one hour, from the decorator call site
`ttl_cache_decorator(ttl_seconds=3600, maxsize=1)` in adapters.py. -/
def keyTTL : Nat := 3600

/-- Modelled from the spec: the state of the public-key cache — the held key
together with its recorded expiry stamp (fetch time plus `keyTTL`), or
nothing when no key is held. -/
structure KeyCache where
  cached : Option (PubKey × Nat)
deriving DecidableEq

/-- The outcome of one `get_key` call: the result served to the caller, the
cache state afterwards, and whether an upstream network fetch was issued. -/
structure GetKeyResult where
  result : Except KeyErr PubKey
  state : KeyCache
  fetched : Bool

/-- Modelled from the spec: the refresh arm of the cache — fetch from the
key-retrieval endpoint; on success store the key with expiry `now + keyTTL`,
on failure surface the key-unavailability error. -/
def fetchAndStore (st : KeyCache) (now : Nat) (fetch : Except KeyErr PubKey) :
    GetKeyResult :=
  match fetch with
  | .ok k => ⟨.ok k, ⟨some (k, now + keyTTL)⟩, true⟩
  | .error e => ⟨.error e, st, true⟩

/-- Modelled from the spec: `get_key` — serve the held key without any
network call while its recorded expiry has not passed; when no key is held or
the expiry has passed, perform a synchronous fetch via `fetchAndStore`. -/
def get_key (st : KeyCache) (now : Nat) (fetch : Except KeyErr PubKey) :
    GetKeyResult :=
  match st.cached with
  | some (k, exp) =>
    if now < exp then ⟨.ok k, st, false⟩
    else fetchAndStore st now fetch
  | none => fetchAndStore st now fetch

/-- C6: a held, unexpired key is served with no network fetch; on a miss or
an elapsed expiry, exactly one fetch is issued — a successful fetch is stored
with the new expiry stamp `now + keyTTL`, and a failed fetch surfaces the
key-unavailability error. -/
theorem get_key_spec (st : KeyCache) (now : Nat) (fetch : Except KeyErr PubKey) :
    (∀ k exp, st.cached = some (k, exp) → now < exp →
        get_key st now fetch = ⟨.ok k, st, false⟩)
    ∧ ((st.cached = none ∨ ∃ k exp, st.cached = some (k, exp) ∧ exp ≤ now) →
        (∀ k, fetch = .ok k →
            get_key st now fetch = ⟨.ok k, ⟨some (k, now + keyTTL)⟩, true⟩)
        ∧ ∀ e, fetch = .error e → get_key st now fetch = ⟨.error e, st, true⟩) := by
  constructor
  · intro k exp hc hlt
    simp [get_key, hc, hlt]
  · intro hmiss
    have hred : get_key st now fetch = fetchAndStore st now fetch := by
      rcases hmiss with hnone | ⟨k, exp, hc, hle⟩
      · simp [get_key, hnone]
      · simp [get_key, hc, Nat.not_lt.mpr hle]
    constructor
    · intro k hf
      rw [hred]
      simp [fetchAndStore, hf]
    · intro e hf
      rw [hred]
      simp [fetchAndStore, hf]

/-- Closed instance of `get_key_spec`: a cold cache fetches once and stores
the key with expiry `0 + keyTTL`. -/
theorem get_key_spec_witness :
    get_key ⟨none⟩ 0 (.ok "pk") = ⟨.ok "pk", ⟨some ("pk", 0 + keyTTL)⟩, true⟩ :=
  ((get_key_spec ⟨none⟩ 0 (.ok "pk")).2 (Or.inl rfl)).1 "pk" rfl

/-! Single-flight refresh discipline, modelled from the spec: within one
refresh window (the cache discovered expired, until the fresh key is
installed) the callers' interleaved actions form a trace of events. -/

/-- Modelled from the spec: what a caller or the in-flight fetch can do
during one refresh window.  `start`: a caller finds the key expired with no
fetch in flight and begins the single fetch; `complete`: the in-flight fetch
finishes and installs the fresh key; `serveStale`: a concurrent caller
proceeds with the previous key while the fetch is in flight; `serveFresh`: a
caller is served the freshly installed key. -/
inductive SFEvent where
  | start
  | complete
  | serveStale
  | serveFresh
deriving DecidableEq

/-- The refresh-window state: whether a fetch is in flight, whether the fresh
key has been installed, and how many upstream fetches were issued. -/
structure SFState where
  inFlight : Bool
  freshInstalled : Bool
  fetches : Nat
deriving DecidableEq

/-- Start of a refresh window: key just expired, nothing in flight. -/
def sfInit : SFState := ⟨false, false, 0⟩

/-- Modelled from the spec: one step of the single-flight discipline; `none`
means the event is not enabled in the given state. -/
def sfStep (s : SFState) (e : SFEvent) : Option SFState :=
  match e with
  | .start =>
    if s.inFlight || s.freshInstalled then none
    else some { s with inFlight := true, fetches := s.fetches + 1 }
  | .complete =>
    if s.inFlight then some { s with inFlight := false, freshInstalled := true }
    else none
  | .serveStale => if s.inFlight then some s else none
  | .serveFresh => if s.freshInstalled then some s else none

/-- Run a trace of events from a state, failing when a step is disabled. -/
def sfRun (s : SFState) : List SFEvent → Option SFState
  | [] => some s
  | e :: es =>
    match sfStep s e with
    | none => none
    | some s' => sfRun s' es

/-- The single-flight invariant: the fetch counter is 1 exactly while a fetch
is in flight or after the fresh key is installed, and 0 before. -/
def sfInv (s : SFState) : Prop :=
  s.fetches = if s.inFlight || s.freshInstalled then 1 else 0

lemma sfStep_inv {s s' : SFState} {e : SFEvent} (h : sfStep s e = some s')
    (hs : sfInv s) : sfInv s' := by
  cases e <;> simp [sfStep] at h
  · obtain ⟨h1, h2⟩ := h.1
    cases h.2
    simp [sfInv, h1, h2] at hs ⊢
    simpa [h1, h2] using hs
  · cases h.2
    simp [sfInv, h.1] at hs ⊢
    exact hs
  · cases h.2
    exact hs
  · cases h.2
    exact hs

lemma sfRun_inv {s s' : SFState} {tr : List SFEvent}
    (h : sfRun s tr = some s') (hs : sfInv s) : sfInv s' := by
  induction tr generalizing s with
  | nil => simp [sfRun] at h; cases h; exact hs
  | cons e es ih =>
    simp only [sfRun] at h
    cases hstep : sfStep s e with
    | none => rw [hstep] at h; cases h
    | some s1 =>
      rw [hstep] at h
      exact ih h (sfStep_inv hstep hs)

/-- C7: along every admissible interleaving of concurrent callers within one
refresh window, at most one upstream fetch is issued, and once any caller
observes the freshly installed key exactly one fetch has been issued. -/
theorem single_flight (tr : List SFEvent) (s : SFState)
    (h : sfRun sfInit tr = some s) :
    s.fetches ≤ 1 ∧ (s.freshInstalled = true → s.fetches = 1) := by
  have hinv : sfInv s := sfRun_inv h (by simp [sfInv, sfInit])
  unfold sfInv at hinv
  constructor
  · rw [hinv]
    split <;> simp
  · intro hf
    rw [hinv, hf]
    simp

/-- Closed instance of `single_flight`: a trace where a second caller rides
the first caller's fetch, the fetch completes, and a caller is then served
the fresh key — a single fetch in total. -/
theorem single_flight_witness :
    sfRun sfInit [.start, .serveStale, .complete, .serveFresh] =
        some ⟨false, true, 1⟩ ∧
      (⟨false, true, 1⟩ : SFState).fetches ≤ 1 ∧
      ((⟨false, true, 1⟩ : SFState).freshInstalled = true →
        (⟨false, true, 1⟩ : SFState).fetches = 1) :=
  ⟨rfl, single_flight [.start, .serveStale, .complete, .serveFresh]
    ⟨false, true, 1⟩ rfl⟩

end Keycloak
